import Mathlib

/-
Verification of the ndnm-argos client core against its specification.

The development shallowly embeds the TypeScript sources:
  * src/utils/flowUtils.ts        (port reconciler)
  * src/utils/graphConverter.ts   (graph serializer and validator)
  * src/hooks/useWorkflowExecution.ts (execution session)
  * src/hooks/useWsClient.ts      (connection manager)

JavaScript objects are modelled as ordered key-value lists, finite numbers
as integers, and function-valued members as tagged values.
-/

namespace Ndnm

/-- A JavaScript runtime value as stored in a node data bag. Finite numbers
are modelled as integers (every count in the source is an integer); `vNaN`
stands for any non-finite number. A function value carries a tag naming the
function stored there. -/
inductive JSVal where
  | vNull
  | vUndefined
  | vBool (b : Bool)
  | vNum (q : Int)
  | vNaN
  | vStr (s : String)
  | vFun (tag : String)
deriving DecidableEq

/-- A JavaScript object: an ordered key-value list. Realizable JS objects
have no duplicate keys; lookups take the first match. -/
abbrev JSObj := List (String × JSVal)

/-- Property read `obj[k]`: the value at the first matching key,
`undefined` when the key is absent. -/
def getVal : JSObj → String → JSVal
  | [], _ => JSVal.vUndefined
  | p :: ps, k => if p.1 = k then p.2 else getVal ps k

/-- Object spread with one overriding property, as in `{...d, k: v}`:
if the key is present its value is replaced in place, otherwise the
property is appended at the end. -/
def setKey (d : JSObj) (k : String) (v : JSVal) : JSObj :=
  if d.any (fun p => p.1 == k) then d.map (fun p => if p.1 = k then (k, v) else p)
  else d ++ [(k, v)]

/-- Truthiness of a JS value, as used by `||` and `&&` guards. -/
def jsTruthy : JSVal → Bool
  | JSVal.vNull => false
  | JSVal.vUndefined => false
  | JSVal.vBool b => b
  | JSVal.vNum q => !(q == 0)
  | JSVal.vNaN => false
  | JSVal.vStr s => !(s == "")
  | JSVal.vFun _ => true

/-- Rendering position of a node (owned by the rendering layer, carried
through untouched by the core). -/
structure Position where
  x : Int
  y : Int
deriving DecidableEq

/-- A React Flow node as used by the core: id, optional type tag, position
and the data bag. -/
structure Node where
  id : String
  type : Option String
  position : Position
  data : JSObj
deriving DecidableEq

/-- A React Flow edge: id, source/target node ids and the optional
source/target handle ids. -/
structure Edge where
  id : String
  source : String
  target : String
  sourceHandle : Option String
  targetHandle : Option String
deriving DecidableEq

/-- The three port modes distinguished by the reconciler. -/
inductive IOMode where
  | fixed0
  | fixed1
  | dyn
deriving DecidableEq

/-- flowUtils.ts `normalizeIOMode`: string or numeric `0`/`1` map to the
fixed modes, the sentinel `"n"` maps to dynamic, anything else defaults to
Fixed(1). -/
def normalizeIOMode (mode : JSVal) : IOMode :=
  if mode = JSVal.vStr "0" ∨ mode = JSVal.vNum 0 then IOMode.fixed0
  else if mode = JSVal.vStr "1" ∨ mode = JSVal.vNum 1 then IOMode.fixed1
  else if mode = JSVal.vStr "n" then IOMode.dyn
  else IOMode.fixed1

/-- The distinct target-handle ids of edges into `nodeId` whose handle is
truthy and starts with `in_` (flowUtils.ts lines 29-33; the JS `Set` is
modelled by deduplication, only its size is consumed). -/
def usedInHandles (nodeId : String) (edges : List Edge) : List String :=
  ((edges.filter (fun e =>
      e.target == nodeId &&
      (match e.targetHandle with
        | some h => !(h == "") && h.startsWith "in_"
        | none => false))).map
    (fun e => match e.targetHandle with
      | some h => h
      | none => "")).dedup

/-- The distinct source-handle ids of edges out of `nodeId` whose handle is
truthy and starts with `out_` (flowUtils.ts lines 47-51). -/
def usedOutHandles (nodeId : String) (edges : List Edge) : List String :=
  ((edges.filter (fun e =>
      e.source == nodeId &&
      (match e.sourceHandle with
        | some h => !(h == "") && h.startsWith "out_"
        | none => false))).map
    (fun e => match e.sourceHandle with
      | some h => h
      | none => "")).dedup

/-- The clamped current count `Number.isFinite(c) ? Math.max(c, 1) : 1`
applied to a stored count value. -/
def effCount (v : JSVal) : Int :=
  match v with
  | JSVal.vNum q => max q 1
  | _ => 1

/-- Desired dynamic input count `Math.max(usedInHandles.size + 1, 1)`. -/
def desiredIn (nodeId : String) (edges : List Edge) : Int :=
  max (((usedInHandles nodeId edges).length : Int) + 1) 1

/-- Desired dynamic output count `Math.max(usedOutHandles.size + 1, 1)`. -/
def desiredOut (nodeId : String) (edges : List Edge) : Int :=
  max (((usedOutHandles nodeId edges).length : Int) + 1) 1

/-- The inputs half of `normalizeNodeIOCounts` (flowUtils.ts lines 26-41):
when the inputs mode normalizes to dynamic and the desired count differs
from the clamped current count, the data bag is respread with
`inputsMode: 'n'` and the new `inputsCount`; otherwise the node is
returned unchanged. -/
def inputStep (node : Node) (edges : List Edge) : Node :=
  if normalizeIOMode (getVal node.data "inputsMode") = IOMode.dyn then
    let currentInCount : Int := effCount (getVal node.data "inputsCount")
    let shouldInCount : Int := desiredIn node.id edges
    if shouldInCount ≠ currentInCount then
      let d := setKey (setKey node.data "inputsMode" (JSVal.vStr "n")) "inputsCount" (JSVal.vNum shouldInCount)
      { node with data := d }
    else node
  else node

/-- The outputs half of `normalizeNodeIOCounts` (flowUtils.ts lines 43-59).
The outputs mode is read from the original data bag (`data` captured at
line 24) while the current count is read from the possibly-updated node. -/
def outputStep (origData : JSObj) (node : Node) (edges : List Edge) : Node :=
  if normalizeIOMode (getVal origData "outputsMode") = IOMode.dyn then
    let currentOutCount : Int := effCount (getVal node.data "outputsCount")
    let shouldOutCount : Int := desiredOut node.id edges
    if shouldOutCount ≠ currentOutCount then
      let d := setKey (setKey node.data "outputsMode" (JSVal.vStr "n")) "outputsCount" (JSVal.vNum shouldOutCount)
      { node with data := d }
    else node
  else node

/-- flowUtils.ts `normalizeNodeIOCounts`: the inputs pass followed by the
outputs pass over its result. -/
def normalizeNodeIOCounts (node : Node) (edges : List Edge) : Node :=
  outputStep node.data (inputStep node edges) edges

/-- flowUtils.ts `normalizeAllNodesIO`: reconcile every node of the graph
against the edge set. -/
def normalizeAllNodesIO (nodes : List Node) (edges : List Edge) : List Node :=
  nodes.map (fun n => normalizeNodeIOCounts n edges)

/-- A backend node descriptor (graphConverter.ts `BackendGraphNode`). The
label keeps its JS value so the `||` fallback chain can be modelled
faithfully. -/
structure BackendGraphNode where
  id : String
  node_type : String
  port : Int
  label : JSVal
  data : JSObj
deriving DecidableEq

/-- A backend connection descriptor (graphConverter.ts `BackendConnection`). -/
structure BackendConnection where
  from_node_id : String
  from_output_index : Int
  to_node_id : String
  to_input_index : Int
deriving DecidableEq

/-- The full backend graph (graphConverter.ts `BackendWorkflowGraph`). -/
structure BackendWorkflowGraph where
  nodes : List BackendGraphNode
  connections : List BackendConnection
deriving DecidableEq

/-- Decimal digits folded into a natural number, as `parseInt` does on an
all-digit string. -/
def digitsToNat (cs : List Char) : Nat :=
  cs.foldl (fun acc c => acc * 10 + (c.toNat - 48)) 0

/-- graphConverter.ts `extractHandleIndex`: a falsy handle yields 0;
otherwise the regex `_(\d+)$` extracts the digits after the final
underscore, and a failed match yields 0. -/
def extractHandleIndex (handleId : Option String) : Int :=
  match handleId with
  | none => 0
  | some h =>
    if h == "" then 0
    else
      let rev := h.data.reverse
      let digits := rev.takeWhile Char.isDigit
      let rest := rev.drop digits.length
      match rest with
      | [] => 0
      | c :: _ =>
        if c = '_' ∧ digits ≠ [] then (digitsToNat digits.reverse : Int) else 0

/-- A falsy-aware string fallback `o || d` where the empty string, null and
undefined are falsy. -/
def strFalsyOr (o : Option String) (d : String) : String :=
  match o with
  | some s => if s == "" then d else s
  | none => d

/-- graphConverter.ts `getNodePort`: the hardcoded type-to-port map with
fallback `|| 3000` (no mapped port is falsy, so the fallback fires exactly
on unmapped types). -/
def getNodePort (nodeType : String) : Int :=
  if nodeType = "add" then 3000
  else if nodeType = "subtract" then 3001
  else if nodeType = "fixedValue" then 3010
  else if nodeType = "fsBrowser" then 3011
  else if nodeType = "playButton" then 3020
  else if nodeType = "comfyPlay" then 3021
  else if nodeType = "emptyLatentImage" then 3002
  else if nodeType = "loadCheckpoint" then 3003
  else if nodeType = "ksampler" then 3004
  else if nodeType = "listDirectory" then 3005
  else 3000

/-- One node of graphConverter.ts `convertNodes`: the descriptor keeps the
whole data bag, overriding only `onChange` with `undefined`; the label is
`data.label || node.type || 'Unknown'`. -/
def convertNode (node : Node) : BackendGraphNode :=
  { id := node.id
  , node_type := strFalsyOr node.type "unknown"
  , port := getNodePort (strFalsyOr node.type "unknown")
  , label :=
      let lv := getVal node.data "label"
      if jsTruthy lv then lv else JSVal.vStr (strFalsyOr node.type "Unknown")
  , data := setKey node.data "onChange" JSVal.vUndefined }

/-- graphConverter.ts `convertNodes`. -/
def convertNodes (nodes : List Node) : List BackendGraphNode :=
  nodes.map convertNode

/-- graphConverter.ts `convertEdges`. -/
def convertEdges (edges : List Edge) : List BackendConnection :=
  edges.map (fun e =>
    { from_node_id := e.source
    , from_output_index := extractHandleIndex e.sourceHandle
    , to_node_id := e.target
    , to_input_index := extractHandleIndex e.targetHandle })

/-- graphConverter.ts `convertGraphForBackend`. -/
def convertGraphForBackend (nodes : List Node) (edges : List Edge) : BackendWorkflowGraph :=
  { nodes := convertNodes nodes, connections := convertEdges edges }

/-- graphConverter.ts `findPlayNodes`: nodes whose type is `playButton` or
`comfyPlay`. -/
def findPlayNodes (nodes : List Node) : List Node :=
  nodes.filter (fun n => n.type == some "playButton" || n.type == some "comfyPlay")

/-- Result of graphConverter.ts `validateGraphForExecution`. -/
structure ValidationResult where
  valid : Bool
  errors : List String
deriving DecidableEq

/-- The empty-graph validation error text. -/
def emptyGraphError : String :=
  "O grafo está vazio. Adicione pelo menos um node."

/-- The missing-Play-node validation error text. -/
def noPlayNodeError : String :=
  "Nenhum node Play encontrado. Adicione um node Play para executar o workflow."

/-- graphConverter.ts `validateGraphForExecution`: collects the empty-graph
and missing-Play-node errors; isolated nodes are only warned about on the
console and never contribute to the result. -/
def validateGraphForExecution (nodes : List Node) (edges : List Edge) : ValidationResult :=
  let errors0 : List String := []
  let errors1 := if nodes.length == 0 then errors0 ++ [emptyGraphError] else errors0
  let playNodes := findPlayNodes nodes
  let errors2 := if playNodes.length == 0 then errors1 ++ [noPlayNodeError] else errors1
  let connectedNodeIds := (edges.map Edge.source) ++ (edges.map Edge.target)
  let _isolatedNodes := nodes.filter (fun n =>
    !(connectedNodeIds.contains n.id) &&
    !(n.type == some "playButton") && !(n.type == some "comfyPlay"))
  { valid := errors2.length == 0, errors := errors2 }

/-- Connection status of the manager (useWsClient.ts `WsStatus`); `opened`
models the status string `"open"`. -/
inductive WsStatus where
  | idle
  | connecting
  | opened
  | closing
  | closed
deriving DecidableEq

/-- The status string rendered into error messages. -/
def wsStatusStr : WsStatus → String
  | WsStatus.idle => "idle"
  | WsStatus.connecting => "connecting"
  | WsStatus.opened => "open"
  | WsStatus.closing => "closing"
  | WsStatus.closed => "closed"

/-- Execution status of a run (useWorkflowExecution.ts `ExecutionStatus`). -/
inductive ExecStatus where
  | idle
  | running
  | completed
  | error
deriving DecidableEq

/-- useWorkflowExecution.ts `ExecutionState`. -/
structure ExecutionState where
  status : ExecStatus
  runId : Option String
  totalNodes : Int
  executedNodes : Int
  cachedNodes : Int
  durationMs : Int
  error : Option String
  currentNode : Option String
deriving DecidableEq

/-- useWorkflowExecution.ts `initialState`. -/
def initialExecState : ExecutionState :=
  { status := ExecStatus.idle
  , runId := none
  , totalNodes := 0
  , executedNodes := 0
  , cachedNodes := 0
  , durationMs := 0
  , error := none
  , currentNode := none }

/-- The EXECUTE_PLAY message assembled by `executeWorkflow`. -/
structure ExecMessage where
  play_node_id : String
  workspace_id : String
  graph : BackendWorkflowGraph
deriving DecidableEq

/-- Observable outcome of one `executeWorkflow` call: the messages sent
through the connection manager and the execution state it settles in. -/
structure ExecOutcome where
  sent : List ExecMessage
  state : ExecutionState
deriving DecidableEq

/-- useWorkflowExecution.ts `executeWorkflow`, with the connection status
passed explicitly: validate, pick the first Play node, convert the graph,
and send iff the connection status is open. -/
def executeWorkflow (nodes : List Node) (edges : List Edge)
    (workspaceName : String) (status : WsStatus) : ExecOutcome :=
  let validation := validateGraphForExecution nodes edges
  if !validation.valid then
    { sent := []
    , state := { initialExecState with
        status := ExecStatus.error
        error := some (String.intercalate "; " validation.errors) } }
  else
    match findPlayNodes nodes with
    | [] =>
      { sent := []
      , state := { initialExecState with
          status := ExecStatus.error
          error := some "Nenhum node Play encontrado" } }
    | playNode :: _ =>
      let backendGraph := convertGraphForBackend nodes edges
      let message : ExecMessage :=
        { play_node_id := playNode.id
        , workspace_id := workspaceName
        , graph := backendGraph }
      if status = WsStatus.opened then
        { sent := [message]
        , state := { initialExecState with status := ExecStatus.running } }
      else
        { sent := []
        , state := { initialExecState with
            status := ExecStatus.error
            error := some ("WebSocket não conectado (status: " ++ wsStatusStr status ++ ")") } }

/-- An inbound backend message as routed by the execution session
(useWorkflowExecution.ts message effect), a tagged union over the message
`type` field; `other` covers every ignored kind (NODE_CONFIG, ECHO, ...). -/
inductive InboundMsg where
  | executionStatus (run_id : Option String) (current_node : Option String) (total_nodes : Option Int)
  | executionComplete (run_id : Option String) (total_nodes executed_nodes cached_nodes duration_ms : Int)
  | executionError (run_id : Option String) (error : Option String) (failed_node : Option String)
  | other
deriving DecidableEq

/-- The JS fallback `o || d` on an optional integer field (0 is falsy). -/
def orFalsyInt (o : Option Int) (d : Int) : Int :=
  match o with
  | some q => if q = 0 then d else q
  | none => d

/-- The JS fallback `o || d` on an optional string field (the empty string
is falsy). -/
def orFalsyStr (o : Option String) (d : Option String) : Option String :=
  match o with
  | some s => if s == "" then d else some s
  | none => d

/-- The inbound message effect of useWorkflowExecution.ts: EXECUTION_STATUS
merges into the previous state, EXECUTION_COMPLETE replaces the state with
the completion fields, EXECUTION_ERROR records the error, anything else is
ignored. -/
def handleMessage (prev : ExecutionState) : InboundMsg → ExecutionState
  | InboundMsg.executionStatus run_id current_node total_nodes =>
    { prev with
        status := ExecStatus.running
        runId := run_id
        currentNode := current_node
        totalNodes := orFalsyInt total_nodes prev.totalNodes }
  | InboundMsg.executionComplete run_id t e c d =>
    { status := ExecStatus.completed
    , runId := run_id
    , totalNodes := t
    , executedNodes := e
    , cachedNodes := c
    , durationMs := d
    , error := none
    , currentNode := none }
  | InboundMsg.executionError run_id err failed =>
    { prev with
        status := ExecStatus.error
        runId := run_id
        error := err
        currentNode := orFalsyStr failed prev.currentNode }
  | InboundMsg.other => prev

/-- Connection-manager options (useWsClient.ts `UseWsClientOptions` after
defaulting); `maxRetries = none` models Infinity. -/
structure WsOptions where
  heartbeatMs : Nat
  backoffBaseMs : Nat
  backoffMaxMs : Nat
  maxRetries : Option Nat
  autoreconnect : Bool
deriving DecidableEq

/-- The defaults merged in useWsClient.ts lines 44-52. -/
def defaultWsOptions : WsOptions :=
  { heartbeatMs := 25000
  , backoffBaseMs := 750
  , backoffMaxMs := 10000
  , maxRetries := none
  , autoreconnect := true }

/-- The mutable refs of the manager that govern reconnection: the retry
counter, the manual-close flag set by `close()` and the effect-scope
`cancelled` flag set on unmount. -/
structure WsConnState where
  retries : Nat
  manualClose : Bool
  cancelled : Bool
deriving DecidableEq

/-- `retry < (options.maxRetries ?? Infinity)`. -/
def ltMax (r : Nat) (m : Option Nat) : Bool :=
  match m with
  | none => true
  | some k => r < k

/-- `Math.min(base * Math.pow(2, retry), cap)`. -/
def reconnectDelay (base cap retry : Nat) : Nat :=
  min (base * 2 ^ retry) cap

/-- The reconnect branch of `ws.onclose` (useWsClient.ts lines 132-146):
when the effect is alive, auto-reconnect is on and the close was not
manual, the retry counter post-increments and, while under the maximum, a
reconnect is scheduled after the backoff delay. Returns the new ref state
and the scheduled delay, if any. -/
def handleClose (opts : WsOptions) (s : WsConnState) : WsConnState × Option Nat :=
  if !s.cancelled && opts.autoreconnect && !s.manualClose then
    let retry := s.retries
    let s1 := { s with retries := retry + 1 }
    if ltMax retry opts.maxRetries then
      (s1, some (reconnectDelay opts.backoffBaseMs opts.backoffMaxMs retry))
    else (s1, none)
  else (s, none)

/-- The manager events that touch the reconnection refs: `close()` sets the
manual-close flag; a transport close runs the reconnect branch; a
successful open resets the retry counter; the unmount cleanup cancels the
effect and sets the manual-close flag. No event ever clears the
manual-close flag. -/
inductive WsEvent where
  | manualClose
  | transportClose
  | transportOpen
  | unmount
deriving DecidableEq

/-- One step of the manager on an event, returning the new ref state and
the reconnect delay scheduled by that step, if any. -/
def wsStep (opts : WsOptions) (s : WsConnState) : WsEvent → WsConnState × Option Nat
  | WsEvent.manualClose => ({ s with manualClose := true }, none)
  | WsEvent.transportClose => handleClose opts s
  | WsEvent.transportOpen => ({ s with retries := 0 }, none)
  | WsEvent.unmount => ({ s with cancelled := true, manualClose := true }, none)

/-- Run the manager over a list of events, collecting every reconnect delay
scheduled along the way. -/
def wsRun (opts : WsOptions) (s : WsConnState) : List WsEvent → WsConnState × List Nat
  | [] => (s, [])
  | e :: rest =>
    let step := wsStep opts s e
    let tail := wsRun opts step.1 rest
    (tail.1, (match step.2 with | some d => [d] | none => []) ++ tail.2)

/-! ### Object lookup and override lemmas -/

theorem setKey_cons_eq (p : String × JSVal) (ps : JSObj) (k : String) (v : JSVal)
    (h : p.1 = k) :
    setKey (p :: ps) k v = (k, v) :: ps.map (fun q => if q.1 = k then (k, v) else q) := by
  simp [setKey, h]

theorem setKey_cons_ne (p : String × JSVal) (ps : JSObj) (k : String) (v : JSVal)
    (h : ¬ p.1 = k) :
    setKey (p :: ps) k v = p :: setKey ps k v := by
  by_cases hps : ps.any (fun q => q.1 == k) = true
  · simp [setKey, h, hps]
  · simp [setKey, h, hps]

theorem getVal_map_override_ne (ps : JSObj) (k k2 : String) (v : JSVal) (h : k2 ≠ k) :
    getVal (ps.map (fun q => if q.1 = k then (k, v) else q)) k2 = getVal ps k2 := by
  induction ps with
  | nil => rfl
  | cons q qs ih =>
    by_cases hq : q.1 = k
    · simp [getVal, hq, Ne.symm h, ih]
    · simp only [List.map_cons, if_neg hq, getVal, ih]

theorem getVal_setKey_same (d : JSObj) (k : String) (v : JSVal) :
    getVal (setKey d k v) k = v := by
  induction d with
  | nil => simp [setKey, getVal]
  | cons p ps ih =>
    by_cases hp : p.1 = k
    · rw [setKey_cons_eq p ps k v hp]; simp [getVal]
    · rw [setKey_cons_ne p ps k v hp]; simp [getVal, hp, ih]

theorem getVal_setKey_ne (d : JSObj) (k k2 : String) (v : JSVal) (h : k2 ≠ k) :
    getVal (setKey d k v) k2 = getVal d k2 := by
  induction d with
  | nil => simp [setKey, getVal, Ne.symm h]
  | cons p ps ih =>
    by_cases hp : p.1 = k
    · rw [setKey_cons_eq p ps k v hp]
      simp [getVal, Ne.symm h, hp, getVal_map_override_ne ps k k2 v h]
    · rw [setKey_cons_ne p ps k v hp]
      by_cases hp2 : p.1 = k2
      · simp [getVal, hp2]
      · simp [getVal, hp2, ih]

/-! ### Mode and count lemmas -/

theorem normalizeIOMode_dyn_iff (v : JSVal) :
    normalizeIOMode v = IOMode.dyn ↔ v = JSVal.vStr "n" := by
  constructor
  · intro h
    unfold normalizeIOMode at h
    split_ifs at h with h1 h2 h3
    exact h3
  · intro h
    subst h
    decide

theorem one_le_effCount (v : JSVal) : 1 ≤ effCount v := by
  cases v <;> simp [effCount]

theorem one_le_desiredIn (nid : String) (es : List Edge) : 1 ≤ desiredIn nid es :=
  le_max_right _ _

theorem one_le_desiredOut (nid : String) (es : List Edge) : 1 ≤ desiredOut nid es :=
  le_max_right _ _

theorem desiredIn_eq (nid : String) (es : List Edge) :
    desiredIn nid es = ((usedInHandles nid es).length : Int) + 1 := by
  unfold desiredIn
  have h : (1 : Int) ≤ ((usedInHandles nid es).length : Int) + 1 := by
    have := Int.natCast_nonneg (usedInHandles nid es).length
    omega
  exact max_eq_left h

theorem desiredOut_eq (nid : String) (es : List Edge) :
    desiredOut nid es = ((usedOutHandles nid es).length : Int) + 1 := by
  unfold desiredOut
  have h : (1 : Int) ≤ ((usedOutHandles nid es).length : Int) + 1 := by
    have := Int.natCast_nonneg (usedOutHandles nid es).length
    omega
  exact max_eq_left h

/-! ### Input-step lemmas -/

theorem inputStep_frame (n : Node) (es : List Edge) :
    (inputStep n es).id = n.id ∧ (inputStep n es).type = n.type ∧
      (inputStep n es).position = n.position := by
  simp only [inputStep]
  split_ifs <;> exact ⟨rfl, rfl, rfl⟩

theorem inputStep_getVal_ne (n : Node) (es : List Edge) (k : String)
    (h1 : k ≠ "inputsMode") (h2 : k ≠ "inputsCount") :
    getVal (inputStep n es).data k = getVal n.data k := by
  simp only [inputStep]
  split_ifs with hdyn hne
  · rw [getVal_setKey_ne _ _ _ _ h2, getVal_setKey_ne _ _ _ _ h1]
  · rfl
  · rfl

theorem inputStep_getVal_inputsMode (n : Node) (es : List Edge) :
    getVal (inputStep n es).data "inputsMode" = getVal n.data "inputsMode" := by
  simp only [inputStep]
  split_ifs with hdyn hne
  · rw [getVal_setKey_ne _ _ _ _ (by decide : ("inputsMode" : String) ≠ "inputsCount"),
      getVal_setKey_same]
    exact ((normalizeIOMode_dyn_iff _).mp hdyn).symm
  · rfl
  · rfl

theorem inputStep_eff (n : Node) (es : List Edge)
    (hdyn : normalizeIOMode (getVal n.data "inputsMode") = IOMode.dyn) :
    effCount (getVal (inputStep n es).data "inputsCount") = desiredIn n.id es := by
  simp only [inputStep, hdyn, if_true]
  split_ifs with hne
  · rw [getVal_setKey_same]
    simp only [effCount]
    exact max_eq_left (one_le_desiredIn n.id es)
  · exact (not_ne_iff.mp hne).symm

theorem inputStep_not_dyn (n : Node) (es : List Edge)
    (h : ¬ normalizeIOMode (getVal n.data "inputsMode") = IOMode.dyn) :
    inputStep n es = n := by
  simp [inputStep, h]

theorem inputStep_no_change (n : Node) (es : List Edge)
    (heq : desiredIn n.id es = effCount (getVal n.data "inputsCount")) :
    inputStep n es = n := by
  simp [inputStep, heq]

/-! ### Output-step lemmas -/

theorem outputStep_frame (origData : JSObj) (n : Node) (es : List Edge) :
    (outputStep origData n es).id = n.id ∧ (outputStep origData n es).type = n.type ∧
      (outputStep origData n es).position = n.position := by
  simp only [outputStep]
  split_ifs <;> exact ⟨rfl, rfl, rfl⟩

theorem outputStep_getVal_ne (origData : JSObj) (n : Node) (es : List Edge) (k : String)
    (h1 : k ≠ "outputsMode") (h2 : k ≠ "outputsCount") :
    getVal (outputStep origData n es).data k = getVal n.data k := by
  simp only [outputStep]
  split_ifs with hdyn hne
  · rw [getVal_setKey_ne _ _ _ _ h2, getVal_setKey_ne _ _ _ _ h1]
  · rfl
  · rfl

theorem outputStep_getVal_outputsMode (origData : JSObj) (n : Node) (es : List Edge)
    (hsame : getVal n.data "outputsMode" = getVal origData "outputsMode") :
    getVal (outputStep origData n es).data "outputsMode" = getVal n.data "outputsMode" := by
  simp only [outputStep]
  split_ifs with hdyn hne
  · rw [getVal_setKey_ne _ _ _ _ (by decide : ("outputsMode" : String) ≠ "outputsCount"),
      getVal_setKey_same, hsame]
    exact ((normalizeIOMode_dyn_iff _).mp hdyn).symm
  · rfl
  · rfl

theorem outputStep_eff (origData : JSObj) (n : Node) (es : List Edge)
    (hdyn : normalizeIOMode (getVal origData "outputsMode") = IOMode.dyn) :
    effCount (getVal (outputStep origData n es).data "outputsCount") = desiredOut n.id es := by
  simp only [outputStep, hdyn, if_true]
  split_ifs with hne
  · rw [getVal_setKey_same]
    simp only [effCount]
    exact max_eq_left (one_le_desiredOut n.id es)
  · exact (not_ne_iff.mp hne).symm

theorem outputStep_not_dyn (origData : JSObj) (n : Node) (es : List Edge)
    (h : ¬ normalizeIOMode (getVal origData "outputsMode") = IOMode.dyn) :
    outputStep origData n es = n := by
  simp [outputStep, h]

theorem outputStep_no_change (origData : JSObj) (n : Node) (es : List Edge)
    (heq : desiredOut n.id es = effCount (getVal n.data "outputsCount")) :
    outputStep origData n es = n := by
  simp [outputStep, heq]

/-! ### Reconciler characterization -/

theorem norm_frame_ids (n : Node) (es : List Edge) :
    (normalizeNodeIOCounts n es).id = n.id ∧ (normalizeNodeIOCounts n es).type = n.type ∧
      (normalizeNodeIOCounts n es).position = n.position := by
  unfold normalizeNodeIOCounts
  obtain ⟨h1, h2, h3⟩ := outputStep_frame n.data (inputStep n es) es
  obtain ⟨g1, g2, g3⟩ := inputStep_frame n es
  exact ⟨h1.trans g1, h2.trans g2, h3.trans g3⟩

theorem norm_eff_in (n : Node) (es : List Edge)
    (hdyn : normalizeIOMode (getVal n.data "inputsMode") = IOMode.dyn) :
    effCount (getVal (normalizeNodeIOCounts n es).data "inputsCount") = desiredIn n.id es := by
  unfold normalizeNodeIOCounts
  rw [outputStep_getVal_ne _ _ _ _ (by decide) (by decide)]
  exact inputStep_eff n es hdyn

theorem norm_eff_out (n : Node) (es : List Edge)
    (hdyn : normalizeIOMode (getVal n.data "outputsMode") = IOMode.dyn) :
    effCount (getVal (normalizeNodeIOCounts n es).data "outputsCount") = desiredOut n.id es := by
  unfold normalizeNodeIOCounts
  rw [outputStep_eff n.data (inputStep n es) es hdyn, (inputStep_frame n es).1]

theorem norm_getVal_inputsMode (n : Node) (es : List Edge) :
    getVal (normalizeNodeIOCounts n es).data "inputsMode" = getVal n.data "inputsMode" := by
  unfold normalizeNodeIOCounts
  rw [outputStep_getVal_ne _ _ _ _ (by decide) (by decide)]
  exact inputStep_getVal_inputsMode n es

theorem norm_getVal_outputsMode (n : Node) (es : List Edge) :
    getVal (normalizeNodeIOCounts n es).data "outputsMode" = getVal n.data "outputsMode" := by
  unfold normalizeNodeIOCounts
  have hsame : getVal (inputStep n es).data "outputsMode" = getVal n.data "outputsMode" :=
    inputStep_getVal_ne n es _ (by decide) (by decide)
  rw [outputStep_getVal_outputsMode n.data (inputStep n es) es hsame]
  exact hsame

theorem norm_getVal_ne (n : Node) (es : List Edge) (k : String)
    (h1 : k ≠ "inputsCount") (h2 : k ≠ "outputsCount") :
    getVal (normalizeNodeIOCounts n es).data k = getVal n.data k := by
  by_cases hk1 : k = "inputsMode"
  · subst hk1; exact norm_getVal_inputsMode n es
  · by_cases hk2 : k = "outputsMode"
    · subst hk2; exact norm_getVal_outputsMode n es
    · unfold normalizeNodeIOCounts
      rw [outputStep_getVal_ne _ _ _ _ hk2 h2]
      exact inputStep_getVal_ne n es _ hk1 h1

theorem norm_no_change (n : Node) (es : List Edge)
    (hIn : normalizeIOMode (getVal n.data "inputsMode") = IOMode.dyn →
      desiredIn n.id es = effCount (getVal n.data "inputsCount"))
    (hOut : normalizeIOMode (getVal n.data "outputsMode") = IOMode.dyn →
      desiredOut n.id es = effCount (getVal n.data "outputsCount")) :
    normalizeNodeIOCounts n es = n := by
  unfold normalizeNodeIOCounts
  have hin : inputStep n es = n := by
    by_cases hdyn : normalizeIOMode (getVal n.data "inputsMode") = IOMode.dyn
    · exact inputStep_no_change n es (hIn hdyn)
    · exact inputStep_not_dyn n es hdyn
  rw [hin]
  by_cases hdyn : normalizeIOMode (getVal n.data "outputsMode") = IOMode.dyn
  · exact outputStep_no_change n.data n es (hOut hdyn)
  · exact outputStep_not_dyn n.data n es hdyn

theorem norm_idem (n : Node) (es : List Edge) :
    normalizeNodeIOCounts (normalizeNodeIOCounts n es) es = normalizeNodeIOCounts n es := by
  apply norm_no_change
  · intro hdyn
    rw [norm_getVal_inputsMode n es] at hdyn
    rw [(norm_frame_ids n es).1, norm_eff_in n es hdyn]
  · intro hdyn
    rw [norm_getVal_outputsMode n es] at hdyn
    rw [(norm_frame_ids n es).1, norm_eff_out n es hdyn]

/-! ### Claims about the Port Reconciler -/

/-- Example node with dynamic inputs and a stale stored count of 0. -/
def staleZeroNode : Node :=
  { id := "a"
  , type := some "add"
  , position := { x := 0, y := 0 }
  , data := [("inputsMode", JSVal.vStr "n"), ("inputsCount", JSVal.vNum 0)] }

/-- C1 (counterexample): a dynamic-inputs node with stored inputsCount 0 and
no incident edges keeps the stored count 0 after one reconciliation pass,
while the claim demands it become the distinct-handle count plus one, 1:
the pass compares the desired count against the clamped current count
`max(0, 1) = 1`, sees no difference, and leaves the stale 0 in place. -/
theorem C1_counterexample :
    normalizeIOMode (getVal staleZeroNode.data "inputsMode") = IOMode.dyn ∧
    usedInHandles staleZeroNode.id [] = [] ∧
    getVal (normalizeNodeIOCounts staleZeroNode []).data "inputsCount" = JSVal.vNum 0 ∧
    getVal (normalizeNodeIOCounts staleZeroNode []).data "inputsCount" ≠ JSVal.vNum 1 := by
  decide

/-- C1 (amended): for every node whose inputs mode normalizes to Dynamic,
after one reconciliation pass the node's effective inputs count — the
stored value clamped by `Number.isFinite(c) ? Math.max(c, 1) : 1` — equals
the number of distinct used input handles plus one, and is at least 1; the
stored field itself is rewritten only when this effective value has to
change, so a stored 0 or an absent count can persist verbatim. Symmetrically
for outputs mode and edges whose source is the node. -/
theorem C1_effective_counts (n : Node) (es : List Edge) :
    (normalizeIOMode (getVal n.data "inputsMode") = IOMode.dyn →
      effCount (getVal (normalizeNodeIOCounts n es).data "inputsCount")
          = ((usedInHandles n.id es).length : Int) + 1 ∧
        1 ≤ effCount (getVal (normalizeNodeIOCounts n es).data "inputsCount")) ∧
    (normalizeIOMode (getVal n.data "outputsMode") = IOMode.dyn →
      effCount (getVal (normalizeNodeIOCounts n es).data "outputsCount")
          = ((usedOutHandles n.id es).length : Int) + 1 ∧
        1 ≤ effCount (getVal (normalizeNodeIOCounts n es).data "outputsCount")) := by
  constructor
  · intro hdyn
    refine ⟨?_, one_le_effCount _⟩
    rw [norm_eff_in n es hdyn, desiredIn_eq]
  · intro hdyn
    refine ⟨?_, one_le_effCount _⟩
    rw [norm_eff_out n es hdyn, desiredOut_eq]

/-- C1 (witness): the amended statement evaluated on the stale-count node. -/
theorem C1_witness :
    effCount (getVal (normalizeNodeIOCounts staleZeroNode []).data "inputsCount")
      = ((usedInHandles staleZeroNode.id []).length : Int) + 1 :=
  ((C1_effective_counts staleZeroNode []).1 (by decide)).1

/-- C2: reconciliation is idempotent — applying `normalizeAllNodesIO` twice
to any node list and edge set yields the same result as applying it once. -/
theorem C2_normalizeAllNodesIO_idem (nodes : List Node) (edges : List Edge) :
    normalizeAllNodesIO ( normalizeAllNodesIO nodes edges) edges
      = normalizeAllNodesIO nodes edges := by
  unfold normalizeAllNodesIO
  rw [List.map_map]
  exact List.map_congr_left fun n _ => norm_idem n edges

/-- C10: `normalizeNodeIOCounts` is a frame-preserving map — id, type and
position are unchanged, every data key other than inputsCount and
outputsCount (including inputsMode, outputsMode, value and widget fields)
reads the same afterwards, and when neither direction's count needs to
change the very same node value is returned unmodified. -/
theorem C10_normalize_frame (n : Node) (es : List Edge) :
    ((normalizeNodeIOCounts n es).id = n.id ∧
      (normalizeNodeIOCounts n es).type = n.type ∧
      (normalizeNodeIOCounts n es).position = n.position) ∧
    (∀ k : String, k ≠ "inputsCount" → k ≠ "outputsCount" →
      getVal (normalizeNodeIOCounts n es).data k = getVal n.data k) ∧
    ((normalizeIOMode (getVal n.data "inputsMode") = IOMode.dyn →
        desiredIn n.id es = effCount (getVal n.data "inputsCount")) →
      (normalizeIOMode (getVal n.data "outputsMode") = IOMode.dyn →
        desiredOut n.id es = effCount (getVal n.data "outputsCount")) →
      normalizeNodeIOCounts n es = n) :=
  ⟨norm_frame_ids n es,
   fun k h1 h2 => norm_getVal_ne n es k h1 h2,
   fun hIn hOut => norm_no_change n es hIn hOut⟩

/-- Example node whose dynamic count already matches the desired count. -/
def steadyNode : Node :=
  { id := "s"
  , type := some "add"
  , position := { x := 2, y := 3 }
  , data := [("inputsMode", JSVal.vStr "n"), ("inputsCount", JSVal.vNum 1),
      ("value", JSVal.vStr "x"), ("onChange", JSVal.vFun "handleNodeValueChange")] }

/-- C10 (witness): the frame property evaluated on a concrete node: the
widget field is preserved and the node comes back unmodified. -/
theorem C10_witness :
    getVal (normalizeNodeIOCounts steadyNode []).data "value"
        = getVal steadyNode.data "value" ∧
      normalizeNodeIOCounts steadyNode [] = steadyNode :=
  ⟨(C10_normalize_frame steadyNode []).2.1 "value" (by decide) (by decide),
   (C10_normalize_frame steadyNode []).2.2 (by decide) (by decide)⟩

/-! ### Validator characterization -/

theorem validate_valid_iff (nodes : List Node) (edges : List Edge) :
    (validateGraphForExecution nodes edges).valid = true ↔
      (nodes ≠ [] ∧ findPlayNodes nodes ≠ []) := by
  by_cases h1 : nodes.length = 0 <;> by_cases h2 : (findPlayNodes nodes).length = 0 <;>
    simp [validateGraphForExecution, h1, h2, ← List.length_eq_zero]

/-! ### Claims about the Serializer and Validator -/

/-- A graph whose only node is a Play node. -/
def playNode0 : Node :=
  { id := "p1", type := some "playButton", position := { x := 0, y := 0 }, data := [] }

/-- An edge both of whose endpoints reference nodes absent from the graph. -/
def danglingEdge0 : Edge :=
  { id := "e1", source := "ghost-src", target := "ghost-tgt"
  , sourceHandle := some "out_0", targetHandle := some "in_0" }

/-- C3 (counterexample): a graph made of one Play node plus an edge whose
endpoints reference no node of the graph passes validation with no errors,
and `executeWorkflow` proceeds to serialize and send it on an open
connection — the dangling edge is never reported. -/
theorem C3_counterexample :
    (¬ ∃ n ∈ [playNode0], n.id = danglingEdge0.source) ∧
    (¬ ∃ n ∈ [playNode0], n.id = danglingEdge0.target) ∧
    (validateGraphForExecution [playNode0] [danglingEdge0]).valid = true ∧
    (validateGraphForExecution [playNode0] [danglingEdge0]).errors = [] ∧
    (executeWorkflow [playNode0] [danglingEdge0] "default" WsStatus.opened).sent.length = 1 := by
  decide

/-- C3 (amended): the validator never inspects edge endpoints — its result
is independent of the edge set altogether, and validity holds iff the graph
has at least one node and at least one Play node; a dangling edge therefore
produces no error and does not stop serialization. -/
theorem C3_validator_ignores_edges (nodes : List Node) (e1 e2 : List Edge) :
    validateGraphForExecution nodes e1 = validateGraphForExecution nodes e2 ∧
    ((validateGraphForExecution nodes e1).valid = true ↔
      (nodes ≠ [] ∧ findPlayNodes nodes ≠ [])) :=
  ⟨rfl, validate_valid_iff nodes e1⟩

/-- C3 (witness): the amended statement evaluated on the dangling-edge
graph: validation succeeds regardless of the dangling edge. -/
theorem C3_witness :
    (validateGraphForExecution [playNode0] [danglingEdge0]).valid = true :=
  (C3_validator_ignores_edges [playNode0] [danglingEdge0] []).2.mpr
    ⟨by decide, by decide⟩

/-- C4 (counterexample): on the empty graph the validator returns two
errors, not exactly the single empty-graph error the claim demands — zero
nodes also trips the missing-Play-node check. -/
theorem C4_counterexample :
    (validateGraphForExecution [] []).errors ≠ [emptyGraphError] ∧
    (validateGraphForExecution [] []).errors.length = 2 := by
  decide

/-- C4 (amended): for the graph with zero nodes and any edge set,
validation yields exactly the empty-graph error followed by the
missing-Play-node error (zero nodes implies no Play node), is invalid, and
reports nothing else — in particular no isolated-node entry. -/
theorem C4_empty_graph_errors (edges : List Edge) :
    validateGraphForExecution [] edges
      = { valid := false, errors := [emptyGraphError, noPlayNodeError] } := rfl

/-- C5: one execute request is sent iff validation succeeds and the
connection status is open; a validation failure ends the session in Error
with the messages joined by "; " and nothing sent; a non-open connection
ends it in Error reporting the status and nothing sent. -/
theorem C5_executeWorkflow_policy (nodes : List Node) (edges : List Edge)
    (ws : String) (st : WsStatus) :
    ((validateGraphForExecution nodes edges).valid = false →
      (executeWorkflow nodes edges ws st).sent = [] ∧
      (executeWorkflow nodes edges ws st).state.status = ExecStatus.error ∧
      (executeWorkflow nodes edges ws st).state.error
        = some (String.intercalate "; " (validateGraphForExecution nodes edges).errors)) ∧
    ((validateGraphForExecution nodes edges).valid = true → st = WsStatus.opened →
      (executeWorkflow nodes edges ws st).sent.length = 1 ∧
      (executeWorkflow nodes edges ws st).state.status = ExecStatus.running ∧
      (executeWorkflow nodes edges ws st).state.error = none) ∧
    ((validateGraphForExecution nodes edges).valid = true → st ≠ WsStatus.opened →
      (executeWorkflow nodes edges ws st).sent = [] ∧
      (executeWorkflow nodes edges ws st).state.status = ExecStatus.error ∧
      (executeWorkflow nodes edges ws st).state.error
        = some ("WebSocket não conectado (status: " ++ wsStatusStr st ++ ")")) := by
  refine ⟨?_, ?_, ?_⟩
  · intro hv
    simp [executeWorkflow, hv]
  · intro hv hst
    subst hst
    have hplay := ((validate_valid_iff nodes edges).mp hv).2
    cases hfp : findPlayNodes nodes with
    | nil => exact absurd hfp hplay
    | cons p ps => simp [executeWorkflow, hv, hfp, initialExecState]
  · intro hv hst
    have hplay := ((validate_valid_iff nodes edges).mp hv).2
    cases hfp : findPlayNodes nodes with
    | nil => exact absurd hfp hplay
    | cons p ps => simp [executeWorkflow, hv, hfp, hst]

/-- C5 (witness): on a valid one-Play-node graph with an open connection,
exactly one execute request goes out and the session runs. -/
theorem C5_witness :
    (executeWorkflow [playNode0] [] "default" WsStatus.opened).sent.length = 1 ∧
    (executeWorkflow [playNode0] [] "default" WsStatus.opened).state.status
        = ExecStatus.running ∧
    (executeWorkflow [playNode0] [] "default" WsStatus.opened).state.error = none :=
  (C5_executeWorkflow_policy [playNode0] [] "default" WsStatus.opened).2.1 (by decide) rfl

/-! ### Claims about the Execution Session state machine -/

/-- C6: from Idle, a progress event followed by a completion event with the
same run id drives the session through Running to Completed; the final
total/executed/cached counts and duration equal exactly the completion
event's fields (earlier progress counts are discarded wholesale) and the
current-node pointer is cleared. -/
theorem C6_progress_then_complete (r : Option String) (cn : Option String)
    (tn : Option Int) (t e c d : Int) :
    (handleMessage initialExecState (InboundMsg.executionStatus r cn tn)).status
        = ExecStatus.running ∧
    handleMessage (handleMessage initialExecState (InboundMsg.executionStatus r cn tn))
        (InboundMsg.executionComplete r t e c d)
      = { status := ExecStatus.completed, runId := r, totalNodes := t
        , executedNodes := e, cachedNodes := c, durationMs := d
        , error := none, currentNode := none } :=
  ⟨rfl, rfl⟩

/-! ### Claims about the Connection Manager -/

/-- C7: the reconnect branch schedules `min(base * 2 ^ retry, cap)` and
post-increments the retry counter; with the default base 750 ms and cap
10000 ms the delays for retries 0 through 4 are exactly 750, 1500, 3000,
6000, 10000 ms. -/
theorem C7_backoff (opts : WsOptions) (s : WsConnState)
    (hc : s.cancelled = false) (ha : opts.autoreconnect = true)
    (hm : s.manualClose = false) (hr : ltMax s.retries opts.maxRetries = true) :
    handleClose opts s
        = ({ s with retries := s.retries + 1 },
            some (min (opts.backoffBaseMs * 2 ^ s.retries) opts.backoffMaxMs)) ∧
      ((handleClose defaultWsOptions ⟨0, false, false⟩).2 = some 750 ∧
        (handleClose defaultWsOptions ⟨1, false, false⟩).2 = some 1500 ∧
        (handleClose defaultWsOptions ⟨2, false, false⟩).2 = some 3000 ∧
        (handleClose defaultWsOptions ⟨3, false, false⟩).2 = some 6000 ∧
        (handleClose defaultWsOptions ⟨4, false, false⟩).2 = some 10000) := by
  constructor
  · simp [handleClose, hc, ha, hm, hr, reconnectDelay]
  · decide

/-- C7 (witness): the backoff law evaluated at retry index 2. -/
theorem C7_witness :
    handleClose defaultWsOptions ⟨2, false, false⟩ = (⟨3, false, false⟩, some 3000) := by
  have h := (C7_backoff defaultWsOptions ⟨2, false, false⟩ rfl rfl rfl rfl).1
  rw [h]
  decide

theorem wsStep_manual_preserved (opts : WsOptions) (s : WsConnState) (e : WsEvent)
    (h : s.manualClose = true) : ((wsStep opts s e).1).manualClose = true := by
  cases e <;> simp [wsStep, handleClose, h]

theorem wsStep_manual_no_schedule (opts : WsOptions) (s : WsConnState) (e : WsEvent)
    (h : s.manualClose = true) : (wsStep opts s e).2 = none := by
  cases e <;> simp [wsStep, handleClose, h]

theorem wsRun_manual (opts : WsOptions) (s : WsConnState) (evs : List WsEvent)
    (h : s.manualClose = true) : (wsRun opts s evs).2 = [] := by
  induction evs generalizing s with
  | nil => rfl
  | cons e rest ih =>
    simp only [wsRun]
    rw [wsStep_manual_no_schedule opts s e h]
    simpa using ih (wsStep opts s e).1 (wsStep_manual_preserved opts s e h)

/-- C8: once `close()` has set the manual-close flag, no reconnect delay is
ever scheduled again, whatever sequence of transport events follows (close,
open, unmount, further manual closes) — no event clears the flag, and the
reconnect branch fires only with the flag unset. The transport error event
never touches reconnection at all in the source (it only logs), so close
events are the exhaustive reconnection trigger. -/
theorem C8_close_suppresses_reconnect (opts : WsOptions) (s : WsConnState)
    (evs : List WsEvent) :
    (wsRun opts ((wsStep opts s WsEvent.manualClose).1) evs).2 = [] :=
  wsRun_manual opts _ evs rfl

/-! ### Claims about node serialization -/

/-- A play node exactly as FlowController's play-node data injection leaves
it before serialization: the pin/unpin/execute callbacks and the onChange
callback live inside the data bag. -/
def playNodeWithCallbacks : Node :=
  { id := "p2"
  , type := some "playButton"
  , position := { x := 1, y := 1 }
  , data := [("label", JSVal.vStr "Play"),
      ("onChange", JSVal.vFun "handleNodeValueChange"),
      ("isPinned", JSVal.vBool false),
      ("onPin", JSVal.vFun "handlePinNode"),
      ("onUnpin", JSVal.vFun "unpinNode"),
      ("onExecute", JSVal.vFun "handleExecuteFromNode"),
      ("isExecuting", JSVal.vBool false)] }

/-- C9 (code bug evidence): `convertNodes` overrides only `onChange`; the
function values FlowController stores in a play node's data (`onPin`,
`onUnpin`, `onExecute`) survive verbatim into the backend descriptor's data
payload, contradicting the stated stripping of every callback reference
(and the converter's own comment about removing non-serializable
functions). -/
theorem C9_callbacks_survive :
    convertNodes [playNodeWithCallbacks] = [convertNode playNodeWithCallbacks] ∧
    getVal (convertNode playNodeWithCallbacks).data "onChange" = JSVal.vUndefined ∧
    getVal (convertNode playNodeWithCallbacks).data "onPin"
        = JSVal.vFun "handlePinNode" ∧
    getVal (convertNode playNodeWithCallbacks).data "onUnpin"
        = JSVal.vFun "unpinNode" ∧
    getVal (convertNode playNodeWithCallbacks).data "onExecute"
        = JSVal.vFun "handleExecuteFromNode" := by
  decide

end Ndnm
